import Mathlib

/-!
Verification of the Anthropic chat-completion translation layer
(swiftide-integrations, anthropic/chat_completion.rs).

The development shallowly embeds the translation code: the request half of
the vendor call (message conversion, tool-spec conversion, request
assembly) and the response half (first text block, tool-use collection).
JSON values mirror serde_json values; fallible builder chains are embedded
as Except values with the same failure branches as the source.
-/

/-- JSON values, mirroring serde_json Value. Objects keep field insertion
order as an association list. -/
inductive Json where
  | null
  | bool (b : Bool)
  | num (n : Int)
  | str (s : String)
  | arr (elems : List Json)
  | obj (fields : List (String × Json))

/-- Mirrors serde_json Value.as_object: some for objects, none otherwise. -/
def Json.asObject : Json → Option (List (String × Json))
  | .obj fields => some fields
  | _ => none

/-- Escaping for JSON string serialization (quote and backslash). -/
def jsonEscape (s : String) : String :=
  s.foldl (fun acc c =>
    if c == '\\' then acc ++ "\\\\"
    else if c == '\"' then acc ++ "\\\""
    else acc.push c) ""

mutual

/-- Compact serialization, mirroring serde_json Value.to_string. -/
def Json.toStr : Json → String
  | .null => "null"
  | .bool true => "true"
  | .bool false => "false"
  | .num n => toString n
  | .str s => "\"" ++ jsonEscape s ++ "\""
  | .arr elems => "[" ++ Json.arrToStr elems ++ "]"
  | .obj fields => "\x7b" ++ Json.objToStr fields ++ "\x7d"

/-- Serialize array elements, comma separated. -/
def Json.arrToStr : List Json → String
  | [] => ""
  | [x] => Json.toStr x
  | x :: xs => Json.toStr x ++ "," ++ Json.arrToStr xs

/-- Serialize object fields, comma separated. -/
def Json.objToStr : List (String × Json) → String
  | [] => ""
  | [(k, v)] => "\"" ++ jsonEscape k ++ "\":" ++ Json.toStr v
  | (k, v) :: fs => "\"" ++ jsonEscape k ++ "\":" ++ Json.toStr v ++ "," ++ Json.objToStr fs

end

/-- Look a key up in a JSON object association list (first match wins). -/
def jsonLookup (k : String) : List (String × Json) → Option Json
  | [] => none
  | (k2, v) :: rest => if k2 == k then some v else jsonLookup k rest

/-- Modelled from the spec: ParamSpec of swiftide-core (not under src):
name, description, required flag. -/
structure ParamSpec where
  name : String
  description : String
  required : Bool

/-- Modelled from the spec: ToolSpec of swiftide-core (not under src):
name, description, ordered parameter list. -/
structure ToolSpec where
  name : String
  description : String
  parameters : List ParamSpec

/-- Modelled from the spec: ToolCall of swiftide-core (not under src):
vendor-assigned identifier, tool name, optional serialized arguments. -/
structure ToolCall where
  id : String
  name : String
  args : Option String

/-- Modelled from the spec: the ChatMessage variants of swiftide-core (not
under src): System, User, Summary, Assistant (optional text, optional tool
calls) and ToolOutput (the originating call plus the optional textual
output of the tool). -/
inductive ChatMessage where
  | system (s : String)
  | user (s : String)
  | summary (s : String)
  | assistant (msg : Option String) (toolCalls : Option (List ToolCall))
  | toolOutput (call : ToolCall) (output : Option String)

/-- Vendor message role (async_anthropic MessageRole). -/
inductive MessageRole where
  | user
  | assistant

/-- Vendor message content blocks (async_anthropic MessageContent): text,
tool-use (id, name, input arguments), tool-result (tool_use_id, content). -/
inductive MessageContent where
  | text (s : String)
  | toolUse (id : String) (name : String) (input : Option String)
  | toolResult (toolUseId : String) (content : String)

/-- Vendor request message: a role and an ordered content list. -/
structure AMessage where
  role : MessageRole
  content : List MessageContent

/-- Vendor tool-choice directive; the source only ever uses Auto. -/
inductive ToolChoice where
  | auto

/-- The vendor request assembled by complete: model, messages in order,
optional tools array, optional tool-choice. The builder leaves tools and
toolChoice unset unless the tool-spec set is non-empty. -/
structure AnthropicRequest where
  model : String
  messages : List AMessage
  tools : Option (List (List (String × Json)))
  toolChoice : Option ToolChoice

/-- Modelled from the spec: a tool-use block of a vendor response
(async_anthropic ToolUse, not under src): id, name, structured input. -/
structure AToolUse where
  id : String
  name : String
  input : Json

/-- A content block of a vendor response: text or tool use. -/
inductive ResponseContent where
  | text (s : String)
  | toolUse (u : AToolUse)

/-- A message of a vendor response: its ordered content blocks. -/
structure AResponseMessage where
  content : List ResponseContent

/-- Modelled from the spec: async_anthropic Message.text (not under src):
scans the content blocks in returned order for the first text block. -/
def AResponseMessage.text (m : AResponseMessage) : Option String :=
  m.content.findSome? (fun c =>
    match c with
    | .text s => some s
    | _ => none)

/-- Modelled from the spec: async_anthropic Message.tool_uses (not under
src): collects every tool-use block of the message, in returned order. -/
def AResponseMessage.tool_uses (m : AResponseMessage) : List AToolUse :=
  m.content.filterMap (fun c =>
    match c with
    | .toolUse u => some u
    | _ => none)

/-- Modelled from the spec: a vendor response, its messages in returned
order (async_anthropic CreateMessagesResponse.messages, not under src). -/
structure AnthropicResponse where
  messages : List AResponseMessage

/-- Modelled from the spec: ChatCompletionResponse of swiftide-core (not
under src): optional text, optional tool-call list. -/
structure ChatCompletionResponse where
  message : Option String
  toolCalls : Option (List ToolCall)

/-- Embeds iter().map(f).collect::<Result<Vec<_>>>() as used at source
lines 27-31 and 41-45: convert in order, stop at the first error. -/
def mapExcept : List α → (α → Except ε β) → Except ε (List β)
  | [], _ => .ok []
  | x :: xs, f =>
    match f x with
    | .error e => .error e
    | .ok y =>
      match mapExcept xs f with
      | .error e => .error e
      | .ok ys => .ok (y :: ys)

/-- Embeds message_to_antropic (source lines 100-141). The builder starts
with role user; ToolOutput becomes a tool-result block whose content
defaults to "Success"; Summary, System and User become plain text content;
Assistant switches the role and builds text-then-tool-use content. All
builder fields are set on every path, so every branch returns ok. -/
def message_to_antropic : ChatMessage → Except String AMessage
  | .toolOutput call output =>
    .ok ⟨.user, [.toolResult call.id (output.getD "Success")]⟩
  | .summary s => .ok ⟨.user, [.text s]⟩
  | .system s => .ok ⟨.user, [.text s]⟩
  | .user s => .ok ⟨.user, [.text s]⟩
  | .assistant msg toolCalls =>
    let textPart : List MessageContent :=
      match msg with
      | some m => [.text m]
      | none => []
    let toolParts : List MessageContent :=
      (toolCalls.getD []).map (fun tc => .toolUse tc.id tc.name tc.args)
    .ok ⟨.assistant, textPart ++ toolParts⟩

/-- Embeds tools_to_anthropic (source lines 143-177). Each parameter
becomes a singleton json object mapping its name to a string-typed schema;
the singletons are collected into a Vec, which serializes as a JSON array
under the properties key. The required list sits at the top level of the
descriptor, next to input_schema, exactly as the source writes it. The
as_object checks mirror the source error branches. -/
def tools_to_anthropic (spec : ToolSpec) : Except String (List (String × Json)) :=
  match mapExcept spec.parameters (fun param =>
    match (Json.obj [(param.name, Json.obj
        [("type", Json.str "string"),
         ("description", Json.str param.description)])]).asObject with
    | some m => .ok m
    | none => .error "Failed to build tool") with
  | .error e => .error e
  | .ok properties =>
    match (Json.obj
      [("name", Json.str spec.name),
       ("description", Json.str spec.description),
       ("input_schema", Json.obj
         [("type", Json.str "object"),
          ("properties", Json.arr (properties.map Json.obj))]),
       ("required", Json.arr
         ((spec.parameters.filter (fun p => p.required)).map
           (fun p => Json.str p.name)))]).asObject with
    | some m => .ok m
    | none => .error "Failed to build tool"

/-- Embeds the request half of complete (source lines 25-52): convert the
messages in order, then, only when the tool-spec set is non-empty, attach
the converted tools and the Auto tool-choice. -/
def translateRequest (model : String) (msgs : List ChatMessage)
    (toolsSpec : List ToolSpec) : Except String AnthropicRequest :=
  match mapExcept msgs message_to_antropic with
  | .error e => .error e
  | .ok messages =>
    if toolsSpec.isEmpty then
      .ok ⟨model, messages, none, none⟩
    else
      match mapExcept toolsSpec tools_to_anthropic with
      | .error e => .error e
      | .ok tools => .ok ⟨model, messages, some tools, some .auto⟩

/-- Embeds the response half of complete (source lines 72-95): collect the
tool uses of every message via flat_map, turn each into a ToolCall with the
input serialized to its string form, replace an empty collection by none,
and take the first text block via find_map. -/
def translateResponse (resp : AnthropicResponse) : ChatCompletionResponse :=
  let collected : List ToolCall :=
    ((resp.messages.map AResponseMessage.tool_uses).flatten).map
      (fun atool => ⟨atool.id, atool.name, some atool.input.toStr⟩)
  let maybeToolCalls : Option (List ToolCall) :=
    if collected.isEmpty then none else some collected
  ⟨resp.messages.findSome? AResponseMessage.text, maybeToolCalls⟩

/-- The content blocks of a response in returned order, concatenated
across its messages (the order the spec speaks about). -/
def allBlocks (resp : AnthropicResponse) : List ResponseContent :=
  (resp.messages.map AResponseMessage.content).flatten

/-- Spec-side reference: the first text block of a block sequence. -/
def specFirstText (blocks : List ResponseContent) : Option String :=
  blocks.findSome? (fun c =>
    match c with
    | .text s => some s
    | _ => none)

/-- Spec-side reference: every tool-use block of a block sequence,
in order. -/
def specToolUses (blocks : List ResponseContent) : List AToolUse :=
  blocks.filterMap (fun c =>
    match c with
    | .toolUse u => some u
    | _ => none)

/-- mapExcept of an everywhere-successful function succeeds. -/
lemma mapExcept_ok_of_forall {α β ε : Type} {f : α → Except ε β} {l : List α}
    (h : ∀ x ∈ l, ∃ y, f x = Except.ok y) : ∃ ys, mapExcept l f = Except.ok ys := by
  induction l with
  | nil => exact ⟨[], rfl⟩
  | cons x xs ih =>
    obtain ⟨y, hy⟩ := h x (List.mem_cons_self x xs)
    obtain ⟨ys, hys⟩ := ih (fun a ha => h a (List.mem_cons_of_mem x ha))
    exact ⟨y :: ys, by simp [mapExcept, hy, hys]⟩

/-- mapExcept of a function that always returns ok is plain map. -/
lemma mapExcept_map_ok {α β ε : Type} (g : α → β) (l : List α) :
    mapExcept l (fun x => (Except.ok (g x) : Except ε β)) = Except.ok (l.map g) := by
  induction l with
  | nil => rfl
  | cons x xs ih => simp [mapExcept, ih]

/-- A successful mapExcept returns one output per input. -/
lemma mapExcept_length {α β ε : Type} {f : α → Except ε β} :
    ∀ {l : List α} {ys : List β}, mapExcept l f = Except.ok ys → ys.length = l.length
  | [], ys, h => by
    simp [mapExcept] at h
    subst h
    rfl
  | x :: xs, ys, h => by
    unfold mapExcept at h
    cases hfx : f x with
    | error e => rw [hfx] at h; cases h
    | ok y =>
      rw [hfx] at h
      cases hrest : mapExcept xs f with
      | error e => rw [hrest] at h; cases h
      | ok zs =>
        rw [hrest] at h
        cases h
        simp [mapExcept_length hrest]

/-- mapExcept aborts at the first failing element with that error, no
matter what follows it. -/
lemma mapExcept_first_error {α β ε : Type} {f : α → Except ε β} {m : α} {e : ε}
    (hm : f m = Except.error e) :
    ∀ (pre : List α), (∀ x ∈ pre, ∃ y, f x = Except.ok y) →
      ∀ (post : List α), mapExcept (pre ++ m :: post) f = Except.error e := by
  intro pre
  induction pre with
  | nil => intro _ post; simp [mapExcept, hm]
  | cons x xs ih =>
    intro h post
    obtain ⟨y, hy⟩ := h x (List.mem_cons_self x xs)
    have hrest := ih (fun a ha => h a (List.mem_cons_of_mem x ha)) post
    simp [mapExcept, hy, hrest]

/-- Every ChatMessage converts successfully: all builder fields are set on
every path of message_to_antropic. -/
lemma message_to_antropic_ok (m : ChatMessage) :
    ∃ am, message_to_antropic m = Except.ok am := by
  cases m <;> exact ⟨_, rfl⟩

/-- The inner parameter conversion of tools_to_anthropic never fails and
yields one singleton object per parameter, in declaration order. -/
lemma tools_props (params : List ParamSpec) :
    mapExcept params (fun param =>
      match (Json.obj [(param.name, Json.obj
          [("type", Json.str "string"),
           ("description", Json.str param.description)])]).asObject with
      | some m => (Except.ok m : Except String (List (String × Json)))
      | none => Except.error "Failed to build tool") =
    Except.ok (params.map (fun param =>
      [(param.name, Json.obj
        [("type", Json.str "string"),
         ("description", Json.str param.description)])])) := by
  induction params with
  | nil => rfl
  | cons p ps ih =>
    simp only [Json.asObject] at ih
    simp [mapExcept, Json.asObject, ih]

/-- What tools_to_anthropic produces, field by field. -/
lemma tools_to_anthropic_eq (spec : ToolSpec) :
    tools_to_anthropic spec = Except.ok
      [("name", Json.str spec.name),
       ("description", Json.str spec.description),
       ("input_schema", Json.obj
         [("type", Json.str "object"),
          ("properties", Json.arr (spec.parameters.map (fun p =>
            Json.obj [(p.name, Json.obj
              [("type", Json.str "string"),
               ("description", Json.str p.description)])])))]),
       ("required", Json.arr
         ((spec.parameters.filter (fun p => p.required)).map
           (fun p => Json.str p.name)))] := by
  unfold tools_to_anthropic
  rw [tools_props]
  simp [Json.asObject, List.map_map, Function.comp]

/-- Scanning message-wise for the first text block agrees with scanning
the concatenated block sequence. -/
lemma text_flatten (ms : List AResponseMessage) :
    ms.findSome? AResponseMessage.text =
      specFirstText ((ms.map AResponseMessage.content).flatten) := by
  induction ms with
  | nil => rfl
  | cons m ms ih =>
    rw [List.findSome?_cons]
    have hsplit : specFirstText (((m :: ms).map AResponseMessage.content).flatten) =
        (AResponseMessage.text m).or
          (specFirstText ((ms.map AResponseMessage.content).flatten)) := by
      simp only [List.map_cons, List.flatten_cons, specFirstText, List.findSome?_append]
      rfl
    rw [hsplit]
    cases hm : AResponseMessage.text m with
    | none => simpa [Option.or] using ih
    | some s => rfl

/-- Collecting tool uses message-wise agrees with collecting them over the
concatenated block sequence. -/
lemma tool_uses_flatten (ms : List AResponseMessage) :
    (ms.map AResponseMessage.tool_uses).flatten =
      specToolUses ((ms.map AResponseMessage.content).flatten) := by
  induction ms with
  | nil => rfl
  | cons m ms ih =>
    simp only [List.map_cons, List.flatten_cons]
    rw [ih]
    simp only [specToolUses, List.filterMap_append]
    rfl

/-- Mapping keeps emptiness. -/
lemma isEmpty_map {α β : Type} (f : α → β) (l : List α) :
    (l.map f).isEmpty = l.isEmpty := by
  cases l <;> rfl

/-- The input_schema object the source produces for a one-parameter
example tool (name get_weather, one required parameter location). -/
def exampleSchemaFields : List (String × Json) :=
  [("type", Json.str "object"),
   ("properties", Json.arr
     [Json.obj [("location", Json.obj
       [("type", Json.str "string"),
        ("description", Json.str "Location")])]])]

/-- C1: evaluated at the example tool spec, the translated descriptor
copies name and description and its input_schema has type object, but its
properties value is a JSON array of singleton objects rather than a JSON
object keyed by parameter name, and the required array is a top-level key
of the descriptor, not contained in input_schema. This refutes the claimed
shape on the code as written. -/
theorem anthropic_c1_descriptor_shape :
    tools_to_anthropic ⟨"get_weather", "Gets the weather",
        [⟨"location", "Location", true⟩]⟩ =
      Except.ok
        [("name", Json.str "get_weather"),
         ("description", Json.str "Gets the weather"),
         ("input_schema", Json.obj exampleSchemaFields),
         ("required", Json.arr [Json.str "location"])] ∧
    (∀ fields, jsonLookup "properties" exampleSchemaFields ≠ some (Json.obj fields)) ∧
    jsonLookup "required" exampleSchemaFields = none := by
  refine ⟨rfl, ?_, rfl⟩
  intro fields h
  have h2 : some (Json.arr
      [Json.obj [("location", Json.obj
        [("type", Json.str "string"),
         ("description", Json.str "Location")])]]) = some (Json.obj fields) := h
  injection h2 with h3
  exact Json.noConfusion h3

/-- C2: the translated result's optional text equals the first text block
of the response's content blocks in returned order, and is absent when no
text block exists; later text blocks cannot influence it. -/
theorem anthropic_c2_first_text_block (resp : AnthropicResponse) :
    (translateResponse resp).message = specFirstText (allBlocks resp) :=
  text_flatten resp.messages

/-- C3: the translated tool-call field holds one ToolCall per tool-use
block of the response, in response order, id and name verbatim and args
the serialized input; it is none, never some [], when no tool-use block
exists. -/
theorem anthropic_c3_tool_use_collection (resp : AnthropicResponse) :
    (translateResponse resp).toolCalls =
      (if (specToolUses (allBlocks resp)).isEmpty then none
       else some ((specToolUses (allBlocks resp)).map
         (fun u => ToolCall.mk u.id u.name (some (Json.toStr u.input))))) ∧
    (translateResponse resp).toolCalls ≠ some [] := by
  have hcoll : (resp.messages.map AResponseMessage.tool_uses).flatten =
      specToolUses (allBlocks resp) := tool_uses_flatten resp.messages
  have hmain : (translateResponse resp).toolCalls =
      (if (specToolUses (allBlocks resp)).isEmpty then none
       else some ((specToolUses (allBlocks resp)).map
         (fun u => ToolCall.mk u.id u.name (some (Json.toStr u.input))))) := by
    show (if (((resp.messages.map AResponseMessage.tool_uses).flatten).map
        (fun u => ToolCall.mk u.id u.name (some (Json.toStr u.input)))).isEmpty then none
      else some (((resp.messages.map AResponseMessage.tool_uses).flatten).map
        (fun u => ToolCall.mk u.id u.name (some (Json.toStr u.input))))) = _
    rw [hcoll, isEmpty_map]
  refine ⟨hmain, ?_⟩
  rw [hmain]
  cases hS : specToolUses (allBlocks resp) with
  | nil => simp
  | cons u us => simp

/-- C4: every Assistant message translates to role assistant whose content
list is the text block when text is present, first, followed by one
tool-use block per tool call in input order, id, name and args verbatim;
in particular Assistant with text and tool calls has 1 + len(calls)
blocks, text first, and an Assistant message with neither still
translates successfully, to an empty content list. -/
theorem anthropic_c4_assistant_content :
    (∀ (msg : Option String) (calls : Option (List ToolCall)),
      message_to_antropic (ChatMessage.assistant msg calls) =
        Except.ok ⟨MessageRole.assistant,
          (match msg with
           | some s => [MessageContent.text s]
           | none => []) ++
          (calls.getD []).map (fun tc => MessageContent.toolUse tc.id tc.name tc.args)⟩) ∧
    (∀ (s : String) (cs : List ToolCall),
      message_to_antropic (ChatMessage.assistant (some s) (some cs)) =
        Except.ok ⟨MessageRole.assistant,
          MessageContent.text s ::
            cs.map (fun tc => MessageContent.toolUse tc.id tc.name tc.args)⟩ ∧
      (MessageContent.text s ::
        cs.map (fun tc => MessageContent.toolUse tc.id tc.name tc.args)).length =
          1 + cs.length) ∧
    message_to_antropic (ChatMessage.assistant none none) =
      Except.ok ⟨MessageRole.assistant, []⟩ := by
  refine ⟨fun msg calls => ?_, fun s cs => ⟨rfl, ?_⟩, rfl⟩
  · cases msg <;> cases calls <;> rfl
  · simp [List.length_cons, List.length_map, Nat.add_comm]

/-- C5: a parameter name is in the generated required array exactly when
some parameter of that name is flagged required, and the array lists the
names in parameter-declaration order (it is an in-order sublist of the
declared names). -/
theorem anthropic_c5_required_list (spec : ToolSpec) :
    ∃ m req, tools_to_anthropic spec = Except.ok m ∧
      jsonLookup "required" m = some (Json.arr req) ∧
      (∀ nm, Json.str nm ∈ req ↔
        ∃ p, p ∈ spec.parameters ∧ p.name = nm ∧ p.required = true) ∧
      List.Sublist req (spec.parameters.map (fun p => Json.str p.name)) := by
  refine ⟨_, (spec.parameters.filter (fun p => p.required)).map (fun p => Json.str p.name),
    tools_to_anthropic_eq spec, ?_, ?_, ?_⟩
  · rfl
  · intro nm
    constructor
    · intro h
      obtain ⟨p, hp, hpe⟩ := List.mem_map.mp h
      obtain ⟨hmem, hreq⟩ := List.mem_filter.mp hp
      injection hpe with hname
      exact ⟨p, hmem, hname, hreq⟩
    · rintro ⟨p, hmem, hname, hreq⟩
      exact List.mem_map.mpr ⟨p, List.mem_filter.mpr ⟨hmem, hreq⟩, by rw [hname]⟩
  · exact (List.filter_sublist _).map _

/-- Witness for C5 at a concrete two-parameter tool spec. -/
theorem anthropic_c5_witness :
    ∃ m req, tools_to_anthropic ⟨"w", "d",
        [⟨"location", "L", true⟩, ⟨"units", "U", false⟩]⟩ = Except.ok m ∧
      jsonLookup "required" m = some (Json.arr req) ∧ Json.str "location" ∈ req := by
  obtain ⟨m, req, h1, h2, h3, _⟩ :=
    anthropic_c5_required_list ⟨"w", "d", [⟨"location", "L", true⟩, ⟨"units", "U", false⟩]⟩
  refine ⟨m, req, h1, h2, (h3 "location").mpr ?_⟩
  exact ⟨⟨"location", "L", true⟩, List.mem_cons_self _ _, rfl, rfl⟩

/-- C6: a ToolOutput message translates to a tool-result block tagged with
the originating call id; the content is the tool output verbatim when
present and the literal "Success" when the tool produced none. -/
theorem anthropic_c6_tool_result_default (call : ToolCall) (output : Option String) :
    ∃ s, message_to_antropic (ChatMessage.toolOutput call output) =
        Except.ok ⟨MessageRole.user, [MessageContent.toolResult call.id s]⟩ ∧
      (output = none → s = "Success") ∧
      (∀ t, output = some t → s = t) := by
  refine ⟨output.getD "Success", rfl, ?_, ?_⟩
  · intro h; rw [h]; rfl
  · intro t h; rw [h]; rfl

/-- Witness for C6: a tool call with no output gets the Success
placeholder. -/
theorem anthropic_c6_witness :
    message_to_antropic (ChatMessage.toolOutput ⟨"id1", "nm", none⟩ none) =
      Except.ok ⟨MessageRole.user, [MessageContent.toolResult "id1" "Success"]⟩ := by
  obtain ⟨s, hs, hnone, _⟩ := anthropic_c6_tool_result_default ⟨"id1", "nm", none⟩ none
  rw [hnone rfl] at hs
  exact hs

/-- C7: every message converts, and the vendor role is assistant exactly
for Assistant messages; User, Summary, System and ToolOutput all map to
the user role. -/
theorem anthropic_c7_role_mapping (m : ChatMessage) :
    ∃ am, message_to_antropic m = Except.ok am ∧
      (am.role = MessageRole.assistant ↔ ∃ t tc, m = ChatMessage.assistant t tc) := by
  cases m with
  | system s =>
    exact ⟨_, rfl, ⟨fun h => MessageRole.noConfusion h,
      fun ⟨t, tc, h⟩ => ChatMessage.noConfusion h⟩⟩
  | user s =>
    exact ⟨_, rfl, ⟨fun h => MessageRole.noConfusion h,
      fun ⟨t, tc, h⟩ => ChatMessage.noConfusion h⟩⟩
  | summary s =>
    exact ⟨_, rfl, ⟨fun h => MessageRole.noConfusion h,
      fun ⟨t, tc, h⟩ => ChatMessage.noConfusion h⟩⟩
  | toolOutput call output =>
    exact ⟨_, rfl, ⟨fun h => MessageRole.noConfusion h,
      fun ⟨t, tc, h⟩ => ChatMessage.noConfusion h⟩⟩
  | assistant msg tc =>
    exact ⟨_, rfl, ⟨fun _ => ⟨msg, tc, rfl⟩, fun _ => rfl⟩⟩

/-- Witness for C7: an Assistant message gets the assistant role. -/
theorem anthropic_c7_witness :
    ∃ am, message_to_antropic (ChatMessage.assistant none none) = Except.ok am ∧
      am.role = MessageRole.assistant := by
  obtain ⟨am, ham, hiff⟩ := anthropic_c7_role_mapping (ChatMessage.assistant none none)
  exact ⟨am, ham, hiff.mpr ⟨none, none, rfl⟩⟩

/-- C8: translation always yields a request; with an empty tool-spec set
the tools field and the tool-choice directive stay unset, and with a
non-empty set the Auto tool-choice directive is set (and the tools field
is populated). -/
theorem anthropic_c8_tool_choice (model : String) (msgs : List ChatMessage)
    (specs : List ToolSpec) :
    ∃ req, translateRequest model msgs specs = Except.ok req ∧
      (specs = [] → req.tools = none ∧ req.toolChoice = none) ∧
      (specs ≠ [] → req.toolChoice = some ToolChoice.auto ∧
        ∃ ts, req.tools = some ts) := by
  obtain ⟨ms, hms⟩ := mapExcept_ok_of_forall (f := message_to_antropic) (l := msgs)
    (fun x _ => message_to_antropic_ok x)
  by_cases hempty : specs = []
  · subst hempty
    refine ⟨⟨model, ms, none, none⟩, ?_, fun _ => ⟨rfl, rfl⟩, fun h => absurd rfl h⟩
    simp [translateRequest, hms]
  · obtain ⟨ts, hts⟩ := mapExcept_ok_of_forall (f := tools_to_anthropic) (l := specs)
      (fun x _ => ⟨_, tools_to_anthropic_eq x⟩)
    refine ⟨⟨model, ms, some ts, some ToolChoice.auto⟩, ?_,
      fun h => absurd h hempty, fun _ => ⟨rfl, ts, rfl⟩⟩
    have hne : specs.isEmpty = false := by
      cases specs with
      | nil => exact absurd rfl hempty
      | cons a l => rfl
    simp [translateRequest, hms, hne, hts]

/-- Witness for C8: no tools leaves both fields unset; one tool spec sets
the Auto directive. -/
theorem anthropic_c8_witness :
    (∃ req, translateRequest "m" [ChatMessage.user "hi"] [] = Except.ok req ∧
      req.tools = none ∧ req.toolChoice = none) ∧
    (∃ req, translateRequest "m" [] [⟨"w", "d", []⟩] = Except.ok req ∧
      req.toolChoice = some ToolChoice.auto) := by
  constructor
  · obtain ⟨req, h1, h2, _⟩ := anthropic_c8_tool_choice "m" [ChatMessage.user "hi"] []
    exact ⟨req, h1, h2 rfl⟩
  · obtain ⟨req, h1, _, h3⟩ := anthropic_c8_tool_choice "m" [] [⟨"w", "d", []⟩]
    exact ⟨req, h1, (h3 (List.cons_ne_nil _ _)).1⟩

/-- C9: the message collection construct aborts at the first failing
conversion with that error, whatever follows; a translation error in the
message stage propagates, so no request is produced; and a produced
request contains exactly the in-order conversion of every message, one
vendor message per input message. -/
theorem anthropic_c9_fail_fast (model : String) (msgs : List ChatMessage)
    (specs : List ToolSpec) (f : ChatMessage → Except String AMessage) :
    (∀ (pre : List ChatMessage) (m : ChatMessage) (post : List ChatMessage) (e : String),
      f m = Except.error e → (∀ x ∈ pre, ∃ y, f x = Except.ok y) →
        mapExcept (pre ++ m :: post) f = Except.error e) ∧
    (∀ e, mapExcept msgs message_to_antropic = Except.error e →
      translateRequest model msgs specs = Except.error e) ∧
    (∀ req, translateRequest model msgs specs = Except.ok req →
      mapExcept msgs message_to_antropic = Except.ok req.messages ∧
      req.messages.length = msgs.length) := by
  refine ⟨fun pre m post e hm hpre => mapExcept_first_error hm pre hpre post, ?_, ?_⟩
  · intro e he
    simp [translateRequest, he]
  · intro req hreq
    unfold translateRequest at hreq
    split at hreq
    · cases hreq
    · rename_i ms hms
      split at hreq
      · injection hreq with h
        subst h
        exact ⟨hms, mapExcept_length hms⟩
      · split at hreq
        · cases hreq
        · rename_i ts hts
          injection hreq with h
          subst h
          exact ⟨hms, mapExcept_length hms⟩

/-- Witness for C9: a failing converter aborts the collection with its
error, and a successful translation carries the converted message list. -/
theorem anthropic_c9_witness :
    mapExcept ([] ++ ChatMessage.user "x" :: [])
      (fun _ => (Except.error "boom" : Except String AMessage)) = Except.error "boom" ∧
    (mapExcept [ChatMessage.user "hi"] message_to_antropic =
      Except.ok [⟨MessageRole.user, [MessageContent.text "hi"]⟩] ∧
     ([⟨MessageRole.user, [MessageContent.text "hi"]⟩] : List AMessage).length =
       [ChatMessage.user "hi"].length) := by
  have h := anthropic_c9_fail_fast "mdl" [ChatMessage.user "hi"] []
    (fun _ => (Except.error "boom" : Except String AMessage))
  refine ⟨h.1 [] (ChatMessage.user "x") [] "boom" rfl
    (fun x hx => absurd hx (List.not_mem_nil x)), ?_⟩
  exact h.2.2 ⟨"mdl", [⟨MessageRole.user, [MessageContent.text "hi"]⟩], none, none⟩ rfl

/-- C10: tool-spec translation is total: it returns ok on every ToolSpec,
whatever the name, description and parameter list; the error branches
behind the as_object checks are unreachable because the constructed json
literals are objects. -/
theorem anthropic_c10_total_tool_translation (spec : ToolSpec) :
    ∃ m, tools_to_anthropic spec = Except.ok m :=
  ⟨_, tools_to_anthropic_eq spec⟩
